import Mathlib

/-!
Verification of the juicebox-sdk client core against its specification.

This file shallowly embeds the Rust sources:
  * `sdk/voprf/src/lib.rs`          — the 2HashDH VOPRF primitive;
  * `sdk/marshalling/src/lib.rs`    — CBOR-based wire serialization;
  * `sdk/core/src/requests.rs`      — the request/response wire types;
  * `sdk/client/src/register.rs`    — the registration state machine;
  * `bridge/jni/src/lib.rs`         — the JNI binding surface.

Modelling conventions:
  * Byte strings are `List Nat`, with each element standing for one byte.
  * The Ristretto group used by the VOPRF is a cyclic group of prime order.
    We identify it with its exponent field: points and scalars share a
    carrier `F` (an arbitrary field, standing for `ZMod ℓ` with ℓ the prime
    group order), the base point is `1`, and scalar-point multiplication is
    field multiplication.  `Scalar::invert` is the field inverse (dalek's
    `invert` maps `0` to `0`, exactly as `Inv` on a Lean field does).
  * External collaborator crates (`sha2`, `curve25519_dalek` point
    compression and hash-to-group, the `dleq` proof module which is not
    among the given sources) are abstract function parameters collected in
    a `VoprfEnv` record; everything written in the repository's own source
    files is embedded concretely.
  * Randomness (`rng` arguments) is modelled by passing the sampled values
    explicitly as arguments.
-/

/-! ### Byte-string utilities -/

/-- Little-endian byte encoding of `v` into exactly `n` bytes
(the layout used by `curve25519_dalek` canonical scalar bytes). -/
def toLEBytes : Nat → Nat → List Nat
  | 0, _ => []
  | n + 1, v => (v % 256) :: toLEBytes n (v / 256)

/-- Reads a little-endian byte string back into a natural number. -/
def fromLEBytes : List Nat → Nat
  | [] => 0
  | b :: rest => b + 256 * fromLEBytes rest

/-- Embeds `to_be8` from `sdk/voprf/src/lib.rs`: the 8-byte big-endian
(network order) encoding of an integer (`u64::to_be_bytes`).  A Rust `usize`
length always fits in a `u64`, so the panic branch is unreachable here. -/
def to_be8 (n : Nat) : List Nat :=
  [n / 2 ^ 56 % 256, n / 2 ^ 48 % 256, n / 2 ^ 40 % 256, n / 2 ^ 32 % 256,
   n / 2 ^ 24 % 256, n / 2 ^ 16 % 256, n / 2 ^ 8 % 256, n % 256]

/-! ### The VOPRF primitive (`sdk/voprf/src/lib.rs`)

The carrier `F` stands for the scalar field / exponent group of the
prime-order Ristretto group (see the module comment).  `VoprfEnv` packages
the external-crate primitives the VOPRF code calls into. -/

/-- Abstract interface to the external crates used by the VOPRF source:
`sha2::Sha512` (a 64-byte digest), `curve25519_dalek` point encoding, and
the `dleq` proof module (whose source file is not among the given sources;
its output does not influence any claim considered here). -/
structure VoprfEnv (F : Type) where
  sha512 : List Nat → List Nat
  from_uniform_bytes : List Nat → F
  compress : F → List Nat
  decompress : List Nat → Option F
  dleq_generate_proof : F → F → List Nat → F → F × F
  dleq_verify_proof : F → F → F → F × F → Bool

/-- The domain-separation tag hashed into every VOPRF output. -/
def domain_sep : List Nat := "Juicebox_VOPRF_2023_1;".toList.map Char.toNat

/-- `DecompressedPoint`: a point in both uncompressed and compressed forms.
`compressed` stands for the 32 bytes of a `CompressedRistretto`. -/
structure DecompressedPoint (F : Type) where
  uncompressed : F
  compressed : List Nat
deriving DecidableEq

/-- `From<Point> for DecompressedPoint` (compresses the point). -/
def DecompressedPoint.ofPoint {F : Type} (env : VoprfEnv F) (p : F) : DecompressedPoint F :=
  { uncompressed := p, compressed := env.compress p }

/-- `TryFrom<CompressedPoint> for DecompressedPoint`: decompression failure
(a non-canonical encoding) is rejected. -/
def DecompressedPoint.try_from {F : Type} (env : VoprfEnv F) (compressed : List Nat) :
    Except String (DecompressedPoint F) :=
  match env.decompress compressed with
  | some uncompressed => .ok { uncompressed := uncompressed, compressed := compressed }
  | none => .error "decompression failed: not canonical point encoding"

/-- `PrivateKey`: a scalar. -/
structure PrivateKey (F : Type) where
  s : F
deriving DecidableEq

/-- `PublicKey`: held in compressed form only (32 raw bytes). -/
structure PublicKey where
  bytes : List Nat
deriving DecidableEq

/-- `BlindedInput`: what the server runs its computation over. -/
structure BlindedInput (F : Type) where
  point : DecompressedPoint F
deriving DecidableEq

/-- `BlindedOutput`: the server's result. -/
structure BlindedOutput (F : Type) where
  point : DecompressedPoint F
deriving DecidableEq

/-- `BlindingFactor`: the random scalar kept by the client. -/
structure BlindingFactor (F : Type) where
  s : F
deriving DecidableEq

/-- `PublicKey::new_from_private`: `Point::mul_base(k).compress()`.  In the
exponent model the base point is `1`, so `mul_base k = k`. -/
def PublicKey.new_from_private {F : Type} (env : VoprfEnv F) (private_key : PrivateKey F) :
    PublicKey :=
  { bytes := env.compress private_key.s }

/-- `Point::hash_from_bytes::<Sha512>` from `curve25519_dalek`: hash the
input with SHA-512, then map the 64 bytes uniformly onto the group. -/
def Point_hash_from_bytes {F : Type} (env : VoprfEnv F) (input : List Nat) : F :=
  env.from_uniform_bytes (env.sha512 input)

/-- `hash_to_output`: the final 2HashDH hash.  Note the source hashes the
domain tag, the 8-byte big-endian input length, the input, and the
compressed result point, in that order. -/
def hash_to_output {F : Type} (env : VoprfEnv F) (input : List Nat) (result : F) : List Nat :=
  env.sha512 (domain_sep ++ to_be8 input.length ++ input ++ env.compress result)

/-- `unoblivious_evaluate`: evaluates the VOPRF locally with the private key. -/
def unoblivious_evaluate {F : Type} [Field F] (env : VoprfEnv F)
    (private_key : PrivateKey F) (input : List Nat) : List Nat :=
  let input_hash := env.sha512 input
  let input_point := env.from_uniform_bytes input_hash
  let result := private_key.s * input_point
  hash_to_output env input result

/-- `start`: blinds the input.  The scalar sampled from the rng is passed
explicitly as `blinding_factor`. -/
def start {F : Type} [Field F] (env : VoprfEnv F) (input : List Nat) (blinding_factor : F) :
    BlindingFactor F × BlindedInput F :=
  let input_point := Point_hash_from_bytes env input
  (⟨blinding_factor⟩, ⟨DecompressedPoint.ofPoint env (input_point * blinding_factor)⟩)

/-- `blind_evaluate`: the server-side evaluation `B1 = k·B0` together with a
DLEQ proof.  The proof nonce sampled from the rng is passed explicitly as
`t`; the proof itself comes from the abstract `dleq` module. -/
def blind_evaluate {F : Type} [Field F] (env : VoprfEnv F) (private_key : PrivateKey F)
    (public_key : PublicKey) (blinded_input : BlindedInput F) (t : F) :
    BlindedOutput F × (F × F) :=
  let blinded_output :=
    DecompressedPoint.ofPoint env (private_key.s * blinded_input.point.uncompressed)
  let proof := env.dleq_generate_proof t private_key.s public_key.bytes
    blinded_output.uncompressed
  (⟨blinded_output⟩, proof)

/-- `finalize`: unblinds the server result and hashes. -/
def finalize {F : Type} [Field F] (env : VoprfEnv F) (input : List Nat)
    (blinding_factor : BlindingFactor F) (blinded_output : BlindedOutput F) : List Nat :=
  let result := blinded_output.point.uncompressed * (blinding_factor.s)⁻¹
  hash_to_output env input result

/-- `verify_proof`: decompresses the public key (rejecting non-canonical
encodings) and checks the DLEQ proof via the abstract `dleq` module. -/
def verify_proof {F : Type} (env : VoprfEnv F) (blinded_input : BlindedInput F)
    (blinded_output : BlindedOutput F) (public_key : PublicKey) (proof : F × F) :
    Except String Unit :=
  match DecompressedPoint.try_from env public_key.bytes with
  | .error _ => .error "invalid public key"
  | .ok public_key_point =>
      if env.dleq_verify_proof blinded_input.point.uncompressed
          public_key_point.uncompressed blinded_output.point.uncompressed proof
      then .ok () else .error "invalid proof"

/-! ### Wire serialization (`sdk/marshalling/src/lib.rs` and the serde glue)

`to_vec`/`from_slice` delegate to `ciborium` (CBOR).  Every key type here
serializes as a single CBOR byte string of 32 bytes.  The `bytes` serde
helper module itself is not among the given sources. -/

/-- Modelled from the spec: CBOR framing used by `ciborium` for a byte
string of 24–255 bytes — major type 2 with a one-byte length argument
(`0x58 len`), i.e. the "2-byte framing tag" of the spec, followed by the
payload. -/
def cbor_bytes_encode (b : List Nat) : List Nat :=
  0x58 :: b.length :: b

/-- Modelled from the spec: decoding of the CBOR byte-string framing
produced by `cbor_bytes_encode`. -/
def cbor_bytes_decode (bytes : List Nat) : Option (List Nat) :=
  match bytes with
  | 0x58 :: n :: rest => if rest.length = n then some rest else none
  | _ => none

/-- The order of the Ristretto scalar field,
ℓ = 2^252 + 27742317777372353535851937790883648493. -/
def scalarOrder : Nat :=
  7237005577332262213973186563042994240857116359379907606001950938285454250989

/-- A `curve25519_dalek` `Scalar`: canonically reduced modulo ℓ. -/
def Scalar25519 : Type := { v : Nat // v < scalarOrder }

instance : DecidableEq Scalar25519 := fun a b =>
  Subtype.instDecidableEq a b

/-- Modelled from the spec: a scalar's wire form is its 32-byte canonical
little-endian encoding (`Scalar::to_bytes`). -/
def scalar_to_bytes (s : Scalar25519) : List Nat :=
  toLEBytes 32 s.val

/-- Modelled from the spec: scalar decoding accepts exactly 32 bytes whose
little-endian value is canonical (below ℓ), as `Scalar::from_canonical_bytes`
does; non-canonical encodings are rejected. -/
def scalar_from_bytes (b : List Nat) : Option Scalar25519 :=
  if h : b.length = 32 ∧ fromLEBytes b < scalarOrder then
    some ⟨fromLEBytes b, h.2⟩
  else none

/-- `to_vec` for `PrivateKey` (serde `bytes` on the inner scalar). -/
def to_vec_private (k : PrivateKey Scalar25519) : List Nat :=
  cbor_bytes_encode (scalar_to_bytes k.s)

/-- `from_slice` for `PrivateKey`. -/
def from_slice_private (bytes : List Nat) : Option (PrivateKey Scalar25519) :=
  (cbor_bytes_decode bytes).bind fun b => (scalar_from_bytes b).map PrivateKey.mk

/-- `to_vec` for `PublicKey` (raw compressed bytes, no validation). -/
def to_vec_public (pk : PublicKey) : List Nat :=
  cbor_bytes_encode pk.bytes

/-- `from_slice` for `PublicKey`: `CompressedRistretto` accepts any 32 raw
bytes; the public key is not decompressed at decode time. -/
def from_slice_public (bytes : List Nat) : Option PublicKey :=
  (cbor_bytes_decode bytes).bind fun b =>
    if b.length = 32 then some ⟨b⟩ else none

/-- `to_vec` for `BlindedInput`: `DecompressedPoint` serializes its
compressed form only. -/
def to_vec_blinded_input {F : Type} (x : BlindedInput F) : List Nat :=
  cbor_bytes_encode x.point.compressed

/-- `from_slice` for `BlindedInput`: 32 bytes, then
`DecompressedPoint::try_from` (decompression must succeed). -/
def from_slice_blinded_input {F : Type} (env : VoprfEnv F) (bytes : List Nat) :
    Option (BlindedInput F) :=
  (cbor_bytes_decode bytes).bind fun b =>
    if b.length = 32 then
      match DecompressedPoint.try_from env b with
      | .ok d => some ⟨d⟩
      | .error _ => none
    else none

/-- `to_vec` for `BlindedOutput`. -/
def to_vec_blinded_output {F : Type} (x : BlindedOutput F) : List Nat :=
  cbor_bytes_encode x.point.compressed

/-- `from_slice` for `BlindedOutput`. -/
def from_slice_blinded_output {F : Type} (env : VoprfEnv F) (bytes : List Nat) :
    Option (BlindedOutput F) :=
  (cbor_bytes_decode bytes).bind fun b =>
    if b.length = 32 then
      match DecompressedPoint.try_from env b with
      | .ok d => some ⟨d⟩
      | .error _ => none
    else none

/-! ### Request wire types (`sdk/core/src/requests.rs`) -/

/-- Modelled from the spec: `Policy` (its definition lives in the core
`types` module, which is not among the given sources) holds
`num_guesses: u16`. -/
structure Policy where
  num_guesses : Nat
deriving DecidableEq

namespace Core

/-- `Register2Request` from `sdk/core/src/requests.rs`.  Field payload
types not defined in the given sources are byte strings. -/
structure Register2Request where
  generation : Nat
  salt : List Nat
  oprf_key : List Nat
  tag : List Nat
  masked_tgk_share : List Nat
  secret_share : List Nat
  policy : Policy
deriving DecidableEq

/-- `Recover1Request`. -/
structure Recover1Request where
  generation : Option Nat
  blinded_pin : List Nat
deriving DecidableEq

/-- `Recover2Request`. -/
structure Recover2Request where
  generation : Nat
  tag : List Nat
deriving DecidableEq

/-- `DeleteRequest`. -/
structure DeleteRequest where
  up_to : Option Nat
deriving DecidableEq

/-- `SecretsRequest`: note that in this version of the wire protocol the
`Register1` variant carries no payload at all. -/
inductive SecretsRequest where
  | Register1
  | Register2 (r : Register2Request)
  | Recover1 (r : Recover1Request)
  | Recover2 (r : Recover2Request)
  | Delete (r : DeleteRequest)
deriving DecidableEq

/-- `SecretsRequest::needs_forward_secrecy`: whether the request must wait
for an established Noise session rather than piggy-backing on the NK
handshake. -/
def SecretsRequest.needs_forward_secrecy : SecretsRequest → Bool
  | .Register1 => false
  | .Register2 _ => true
  | .Recover1 _ => false
  | .Recover2 _ => true
  | .Delete _ => false

end Core

/-! ### Registration state machine (`sdk/client/src/register.rs`)

The per-realm request functions `register1`/`register2` perform network
I/O through `make_request`; their outcomes are passed in explicitly as
lists (one entry per realm, in realm order, which models the completion
of `join_all`/`try_join_all` over the per-realm futures). -/

/-- `RegisterError` — the user-visible registration error.  The variant
order carries its derived `Ord`: `InvalidAuth < Assertion < Transient`. -/
inductive RegisterError where
  | InvalidAuth
  | Assertion
  | Transient
deriving DecidableEq

/-- The rank a `RegisterError` sorts by (its derived `Ord`): the variant
declaration index. -/
def errRank : RegisterError → Nat
  | .InvalidAuth => 0
  | .Assertion => 1
  | .Transient => 2

/-- The comparison used by `found_errors.sort_unstable()`. -/
def errLE (a b : RegisterError) : Prop := errRank a ≤ errRank b

instance : DecidableRel errLE := fun a b => Nat.decLe (errRank a) (errRank b)

instance : IsTotal RegisterError errLE := ⟨fun a b => Nat.le_total (errRank a) (errRank b)⟩

instance : IsTrans RegisterError errLE := ⟨fun _ _ _ hab hbc => Nat.le_trans hab hbc⟩

/-- `found_errors.sort_unstable()` (any comparison sort; insertion sort
used here). -/
def sortErrors (l : List RegisterError) : List RegisterError :=
  List.insertionSort errLE l

/-- `RegisterGenSuccess` — carries whether lower-generation records were
found on some server. -/
structure RegisterGenSuccess where
  found_earlier_generations : Bool
deriving DecidableEq

/-- `RegisterGenError` — a fatal error or a retry at the first generation
number available on a server. -/
inductive RegisterGenError where
  | Error (e : RegisterError)
  | Retry (g : Nat)
deriving DecidableEq

/-- The OPRF result bytes a successful `register1` returns. -/
def OprfResult : Type := List Nat

instance : DecidableEq OprfResult := fun a b => List.hasDecEq a b

/-- The phase-1 collection loop of `register_generation` (the `for result
in join_all(register1_requests)` loop): accumulates `oprfs_pin`,
`retry_generation` and `found_errors`, and returns early with the
highest-priority error as soon as fewer than `t` (the register threshold)
realms can still succeed.  `n` is `configuration.realms.len()`. -/
def register1_collect (n t : Nat) :
    List (Except RegisterGenError OprfResult) → List (Option OprfResult) →
    Option Nat → List RegisterError → Except RegisterGenError (List (Option OprfResult))
  | [], oprfs_pin, retry_generation, _found_errors =>
    match retry_generation with
    | some g => .error (.Retry g)
    | none => .ok oprfs_pin
  | .ok oprf_pin :: rest, oprfs_pin, retry_generation, found_errors =>
    register1_collect n t rest (oprfs_pin ++ [some oprf_pin]) retry_generation found_errors
  | .error (.Error e) :: rest, oprfs_pin, retry_generation, found_errors =>
    if n - (found_errors ++ [e]).length < t then
      match sortErrors (found_errors ++ [e]) with
      | [] => .error (.Error e)
      | worst :: _ => .error (.Error worst)
    else
      register1_collect n t rest (oprfs_pin ++ [none]) retry_generation (found_errors ++ [e])
  | .error (.Retry g) :: rest, oprfs_pin, retry_generation, found_errors =>
    register1_collect n t rest oprfs_pin
      (match retry_generation with
       | none => some g
       | some g0 => if g0 < g then some g else some g0)
      found_errors

/-- Phase 1 of `register_generation`, started with empty accumulators. -/
def register1_phase (n t : Nat) (results : List (Except RegisterGenError OprfResult)) :
    Except RegisterGenError (List (Option OprfResult)) :=
  register1_collect n t results [] none []

/-- The errors pushed onto `found_errors` by a run of the phase-1 loop. -/
def errorsOf : List (Except RegisterGenError OprfResult) → List RegisterError
  | [] => []
  | .ok _ :: rest => errorsOf rest
  | .error (.Error e) :: rest => e :: errorsOf rest
  | .error (.Retry _) :: rest => errorsOf rest

/-- The entries pushed onto `oprfs_pin` by a run of the phase-1 loop. -/
def oprfsOf : List (Except RegisterGenError OprfResult) → List (Option OprfResult)
  | [] => []
  | .ok oprf_pin :: rest => some oprf_pin :: oprfsOf rest
  | .error (.Error _) :: rest => none :: oprfsOf rest
  | .error (.Retry _) :: rest => oprfsOf rest

/-- The `retry_generation` accumulator after a run of the phase-1 loop
(keeps the largest retry generation seen). -/
def retryAcc (acc : Option Nat) : List (Except RegisterGenError OprfResult) → Option Nat
  | [] => acc
  | .ok _ :: rest => retryAcc acc rest
  | .error (.Error _) :: rest => retryAcc acc rest
  | .error (.Retry g) :: rest =>
    retryAcc
      (match acc with
       | none => some g
       | some g0 => if g0 < g then some g else some g0)
      rest

/-- The spec's aggregation rule: the highest-priority error of a list,
with priority `InvalidAuth > Assertion > Transient`. -/
def highestPriority (l : List RegisterError) : RegisterError :=
  if RegisterError.InvalidAuth ∈ l then .InvalidAuth
  else if RegisterError.Assertion ∈ l then .Assertion
  else .Transient

/-- `futures::future::try_join_all` over already-determined outcomes in
completion order: all successes, or the first error. -/
def try_join_all {ε α : Type} : List (Except ε α) → Except ε (List α)
  | [] => .ok []
  | .ok a :: rest => (try_join_all rest).map (a :: ·)
  | .error e :: _ => .error e

/-- The number of successful outcomes in a list. -/
def count_ok {ε α : Type} : List (Except ε α) → Nat
  | [] => 0
  | .ok _ :: rest => count_ok rest + 1
  | .error _ :: rest => count_ok rest

/-- Phase 2 of `register_generation`: `try_join_all(register2_requests)`,
mapping total success to a `RegisterGenSuccess` and any failure to a fatal
error.  `outcomes` are the per-realm `register2` results for the realms
that passed phase 1. -/
def register2_phase (outcomes : List (Except RegisterError RegisterGenSuccess)) :
    Except RegisterGenError RegisterGenSuccess :=
  match try_join_all outcomes with
  | .ok successes =>
    .ok ⟨successes.any (fun s => s.found_earlier_generations)⟩
  | .error e => .error (.Error e)

/-- `register_first_available_generation`: tries generation 0, then — on a
retry request — the reported first-available generation, exactly once.
`eval g` stands for `register_generation(g, hashed_pin, secret, policy)`
(its other arguments are fixed across both calls); the `delete_up_to`
side effect on success does not alter the returned value. -/
def register_first_available_generation
    (eval : Nat → Except RegisterGenError RegisterGenSuccess) :
    Except RegisterError Unit :=
  match eval 0 with
  | .ok _ => .ok ()
  | .error (.Error e) => .error e
  | .error (.Retry generation) =>
    match eval generation with
    | .ok _ => .ok ()
    | .error (.Error e) => .error e
    | .error (.Retry _) => .error .Assertion

/-- The generation numbers `register_first_available_generation` attempts,
in order. -/
def attempted_generations
    (eval : Nat → Except RegisterGenError RegisterGenSuccess) : List Nat :=
  match eval 0 with
  | .error (.Retry generation) => [0, generation]
  | _ => [0]

namespace Loam

/-- Modelled from the spec (legacy generation variant): the
`Register1Request` that `register.rs` builds — its definition lives in the
`loam_sdk_core` requests module, which is not among the given sources; the
fields are exactly those the client fills in: the generation number and the
blinded OPRF evaluation of the hashed PIN. -/
structure Register1Request where
  generation : Nat
  blinded_pin : List Nat
deriving DecidableEq

/-- Modelled from the spec (legacy generation variant): the
`Register2Request` built by `register2` in `register.rs`. -/
structure Register2Request where
  generation : Nat
  masked_tgk_share : List Nat
  tag : List Nat
  secret_share : List Nat
  policy : Policy
deriving DecidableEq

/-- Modelled from the spec (legacy generation variant): the
`SecretsRequest` wrapper that `register.rs` sends; in this protocol
version `Register1` carries a `Register1Request` payload. -/
inductive SecretsRequest where
  | Register1 (r : Register1Request)
  | Register2 (r : Register2Request)
deriving DecidableEq

end Loam

/-- The request that `register1` in `register.rs` assembles and passes to
`make_request` (lines 230–236): `SecretsRequest::Register1(Register1Request
{ generation, blinded_pin })`. -/
def register1_request (generation : Nat) (blinded_pin : List Nat) : Loam.SecretsRequest :=
  .Register1 { generation := generation, blinded_pin := blinded_pin }

/-! ### JNI binding surface (`bridge/jni/src/lib.rs`) -/

/-- `u16::try_from` on an `i16` (`jshort`) value: fails exactly on
negative inputs (every non-negative `i16` fits a `u16`). -/
def u16_try_from (n : Int) : Option Nat :=
  if 0 ≤ n ∧ n < 65536 then some n.toNat else none

/-- The policy constructed by
`Java_xyz_juicebox_sdk_internal_Native_clientRegister`:
`num_guesses.try_into().unwrap()` followed by `Policy { num_guesses }`.
`none` models the `unwrap` panic on a failed conversion. -/
def clientRegister_policy (num_guesses : Int) : Option Policy :=
  (u16_try_from num_guesses).map Policy.mk

/-! ### Concrete instantiations used to witness the parametric theorems -/

instance : Fact (Nat.Prime 5) := ⟨by norm_num⟩

/-- A small concrete `VoprfEnv` over the field `ZMod 5` (standing in for
`ZMod ℓ`), used to evaluate the parametric VOPRF theorems. -/
def envW : VoprfEnv (ZMod 5) where
  sha512 := fun l => l
  from_uniform_bytes := fun l => (l.length : ZMod 5)
  compress := fun p => [p.val]
  decompress := fun b =>
    match b with
    | [v] => if v < 5 then some (v : ZMod 5) else none
    | _ => none
  dleq_generate_proof := fun _ _ _ _ => (0, 0)
  dleq_verify_proof := fun _ _ _ _ => true

/-- A degenerate concrete `VoprfEnv` over `Unit` whose decompression
accepts exactly the empty byte string. -/
def envU : VoprfEnv Unit where
  sha512 := fun l => l
  from_uniform_bytes := fun _ => ()
  compress := fun _ => []
  decompress := fun b => if b = [] then some () else none
  dleq_generate_proof := fun _ _ _ _ => ((), ())
  dleq_verify_proof := fun _ _ _ _ => true

/-- A concrete `VoprfEnv` over `Fin 2` whose point encoding is a canonical
32-byte little-endian form, used to evaluate the serialization theorems. -/
def envB : VoprfEnv (Fin 2) where
  sha512 := fun l => l
  from_uniform_bytes := fun _ => 0
  compress := fun p => toLEBytes 32 p.val
  decompress := fun b =>
    if h : b.length = 32 ∧ fromLEBytes b < 2 then some ⟨fromLEBytes b, h.2⟩ else none
  dleq_generate_proof := fun _ _ _ _ => (0, 0)
  dleq_verify_proof := fun _ _ _ _ => true

/-- A concrete private key. -/
def kW : PrivateKey Scalar25519 := ⟨⟨1, by decide⟩⟩

/-- A concrete well-formed `BlindedInput` over `Fin 2`. -/
def xW : BlindedInput (Fin 2) := ⟨⟨1, toLEBytes 32 1⟩⟩

/-- A concrete well-formed `BlindedOutput` over `Fin 2`. -/
def yW : BlindedOutput (Fin 2) := ⟨⟨1, toLEBytes 32 1⟩⟩

/-- A concrete public key (32 bytes). -/
def pkW : PublicKey := ⟨toLEBytes 32 1⟩

/-! ### Helper lemmas -/

theorem toLEBytes_length (n v : Nat) : (toLEBytes n v).length = n := by
  induction n generalizing v with
  | zero => rfl
  | succ m ih => simp [toLEBytes, ih]

theorem fromLEBytes_toLEBytes (n v : Nat) (h : v < 256 ^ n) :
    fromLEBytes (toLEBytes n v) = v := by
  induction n generalizing v with
  | zero =>
    simp [toLEBytes, fromLEBytes]
    omega
  | succ m ih =>
    have hdiv : v / 256 < 256 ^ m := by
      rw [Nat.div_lt_iff_lt_mul (by norm_num)]
      calc v < 256 ^ (m + 1) := h
        _ = 256 ^ m * 256 := by ring
    simp [toLEBytes, fromLEBytes, ih _ hdiv]
    omega

theorem cbor_decode_encode (b : List Nat) :
    cbor_bytes_decode (cbor_bytes_encode b) = some b := by
  simp [cbor_bytes_encode, cbor_bytes_decode]

theorem cbor_encode_length (b : List Nat) :
    (cbor_bytes_encode b).length = b.length + 2 := by
  simp [cbor_bytes_encode]

/-! ### C4, C6: request payloads and the forward-secrecy rule -/

/-- C6: `needs_forward_secrecy` returns `true` exactly on the `Register2`
and `Recover2` variants and `false` exactly on `Register1`, `Recover1` and
`Delete`, so only the latter three may be piggy-backed with the Noise
handshake. -/
theorem needs_forward_secrecy_iff (r : Core.SecretsRequest) :
    (r.needs_forward_secrecy = true ↔
      (∃ q, r = .Register2 q) ∨ (∃ q, r = .Recover2 q)) ∧
    (r.needs_forward_secrecy = false ↔
      (r = .Register1 ∨ (∃ q, r = .Recover1 q) ∨ (∃ q, r = .Delete q))) := by
  cases r <;> simp [Core.SecretsRequest.needs_forward_secrecy]

/-- C4 counterexample: the phase-1 request sent by `register1` in
`register.rs` is not payload-free — it differs for different blinded
PIN values, so it carries the blinded OPRF input. -/
theorem register1_payload_counterexample :
    register1_request 0 [0] ≠ register1_request 0 [1] := by
  decide

/-- C4 amended: the phase-1 request of `register.rs` carries exactly the
generation number and the blinded OPRF evaluation of the hashed PIN — the
request determines, and is determined by, this cryptographic payload. -/
theorem register1_request_determined_by_payload (g1 g2 : Nat) (bp1 bp2 : List Nat) :
    register1_request g1 bp1 = register1_request g2 bp2 ↔ (g1 = g2 ∧ bp1 = bp2) := by
  simp [register1_request]

/-! ### C5: the structure of `finalize` -/

/-- C5: `finalize(input, b, B1)` is the SHA-512 digest of the
domain-separation tag "Juicebox_VOPRF_2023_1;" (22 ASCII bytes), the
8-byte big-endian input length, the input, and the compressed unblinded
point `B1 · b⁻¹`, concatenated in that order. -/
theorem finalize_hash_structure (F : Type) [Field F] (env : VoprfEnv F)
    (input : List Nat) (b : BlindingFactor F) (B1 : BlindedOutput F) :
    finalize env input b B1 =
      env.sha512 ([74, 117, 105, 99, 101, 98, 111, 120, 95, 86, 79, 80, 82, 70, 95,
        50, 48, 50, 51, 95, 49, 59] ++ to_be8 input.length ++ input ++
        env.compress (B1.point.uncompressed * (b.s)⁻¹)) ∧
    (to_be8 input.length).length = 8 ∧
    domain_sep = [74, 117, 105, 99, 101, 98, 111, 120, 95, 86, 79, 80, 82, 70, 95,
      50, 48, 50, 51, 95, 49, 59] := by
  have hd : domain_sep = [74, 117, 105, 99, 101, 98, 111, 120, 95, 86, 79, 80, 82, 70,
      95, 50, 48, 50, 51, 95, 49, 59] := by decide
  refine ⟨?_, rfl, hd⟩
  simp only [finalize, hash_to_output, hd]

/-! ### C9: the JNI guess-count range -/

/-- C9 counterexample: the JNI register entry point accepts `num_guesses`
values outside 1..=255 — both 0 and 300 pass the `i16 → u16` conversion
unchanged. -/
theorem clientRegister_policy_counterexample :
    clientRegister_policy 0 = some ⟨0⟩ ∧ ¬(1 ≤ (0 : Nat)) ∧
    clientRegister_policy 300 = some ⟨300⟩ ∧ ¬((300 : Nat) ≤ 255) := by
  decide

/-- C9 amended: for `jshort` inputs the JNI bridge accepts exactly the
non-negative values (0..=32767) and passes them through unchanged; no
1..=255 bound is enforced. -/
theorem clientRegister_policy_accepts_nonnegative (n : Int)
    (hlo : -32768 ≤ n) (hhi : n ≤ 32767) :
    ((clientRegister_policy n).isSome ↔ 0 ≤ n) ∧
    (∀ p, clientRegister_policy n = some p → p.num_guesses = n.toNat) := by
  have hlt : n < 65536 := by omega
  unfold clientRegister_policy u16_try_from
  by_cases hn : 0 ≤ n
  · rw [if_pos ⟨hn, hlt⟩]
    refine ⟨by simpa using hn, ?_⟩
    intro p hp
    have hmk : Policy.mk n.toNat = p := by
      simpa using hp
    rw [← hmk]
  · rw [if_neg (fun hc => hn hc.1)]
    refine ⟨by simpa using hn, ?_⟩
    intro p hp
    simp at hp

/-- C9 witness: the amended statement evaluated at `num_guesses = 5`. -/
theorem clientRegister_policy_accepts_nonnegative_witness :
    ((clientRegister_policy 5).isSome ↔ (0 : Int) ≤ 5) ∧
    (∀ p, clientRegister_policy 5 = some p → p.num_guesses = (5 : Int).toNat) :=
  clientRegister_policy_accepts_nonnegative 5 (by decide) (by decide)

/-! ### C10: at most two generation attempts -/

/-- C10: `register_first_available_generation` attempts generation 0
first; on a retry request at generation `g` it attempts `g` exactly once,
and a second retry request yields `RegisterError::Assertion` rather than
another attempt. -/
theorem register_attempts_at_most_two
    (eval : Nat → Except RegisterGenError RegisterGenSuccess) :
    (attempted_generations eval).length ≤ 2 ∧
    (attempted_generations eval).head? = some 0 ∧
    (∀ g, eval 0 = .error (.Retry g) →
      attempted_generations eval = [0, g] ∧
      (∀ g2, eval g = .error (.Retry g2) →
        register_first_available_generation eval = .error .Assertion)) := by
  refine ⟨?_, ?_, ?_⟩
  · unfold attempted_generations
    split <;> simp
  · unfold attempted_generations
    split <;> simp
  · intro g h0
    constructor
    · unfold attempted_generations
      rw [h0]
    · intro g2 h2
      simp [register_first_available_generation, h0, h2]

/-- C10 witness: a run in which both attempts request a retry ends in
`Assertion` after attempting generations 0 and 1 only. -/
theorem register_attempts_at_most_two_witness :
    attempted_generations (fun _ => .error (.Retry 1)) = [0, 1] ∧
    register_first_available_generation (fun _ => .error (.Retry 1)) =
      .error .Assertion := by
  have h := register_attempts_at_most_two (fun _ => .error (.Retry 1))
  exact ⟨(h.2.2 1 rfl).1, (h.2.2 1 rfl).2 1 rfl⟩

/-! ### C1: the oblivious evaluation matches the unoblivious one -/

/-- C1: for every input and key pair with `P = new_from_private(k)`, if
`(b, B0) = start(input, rng)` samples a nonzero blinding factor and
`(B1, π) = blind_evaluate(k, P, B0, rng)`, then
`finalize(input, b, B1) = unoblivious_evaluate(k, input)`. -/
theorem voprf_blind_evaluate_matches_unoblivious (F : Type) [Field F] (env : VoprfEnv F)
    (k b : F) (input : List Nat) (hb : b ≠ 0) :
    finalize env input (start env input b).1
      (blind_evaluate env ⟨k⟩ (PublicKey.new_from_private env ⟨k⟩) (start env input b).2 0).1 =
    unoblivious_evaluate env ⟨k⟩ input := by
  have hpt : k * (Point_hash_from_bytes env input * b) * b⁻¹
      = k * env.from_uniform_bytes (env.sha512 input) := by
    rw [Point_hash_from_bytes]
    field_simp
    ring
  simp only [finalize, blind_evaluate, start, unoblivious_evaluate,
    DecompressedPoint.ofPoint, hash_to_output]
  rw [hpt]

/-- C1 witness: the contract evaluated over `ZMod 5` at `k = 2`, `b = 3`,
`input = [7]`. -/
theorem voprf_blind_evaluate_matches_unoblivious_witness :
    ((3 : ZMod 5) ≠ 0) ∧
    finalize envW [7] (start envW [7] 3).1
      (blind_evaluate envW ⟨2⟩ (PublicKey.new_from_private envW ⟨2⟩) (start envW [7] 3).2 0).1 =
    unoblivious_evaluate envW ⟨2⟩ [7] :=
  ⟨by decide, voprf_blind_evaluate_matches_unoblivious (ZMod 5) envW 2 3 [7] (by decide)⟩

/-! ### C2: phase-2 success aggregation -/

theorem except_map_isOk {ε α β : Type} (f : α → β) (m : Except ε α) :
    (m.map f).isOk = m.isOk := by
  cases m <;> rfl

@[simp]
theorem except_isOk_ok {ε α : Type} (a : α) : (Except.ok a : Except ε α).isOk = true := rfl

@[simp]
theorem except_isOk_error {ε α : Type} (e : ε) :
    (Except.error e : Except ε α).isOk = false := rfl

theorem try_join_all_isOk {ε α : Type} (l : List (Except ε α)) :
    (try_join_all l).isOk = true ↔ ∀ x ∈ l, x.isOk = true := by
  induction l with
  | nil => simp [try_join_all]
  | cons x rest ih =>
    cases x with
    | ok a =>
      have hstep : try_join_all (Except.ok a :: rest) = (try_join_all rest).map (a :: ·) := rfl
      rw [hstep, except_map_isOk, ih]
      simp
    | error e =>
      have hstep : try_join_all (Except.error e :: rest) = (.error e : Except ε (List α)) := rfl
      rw [hstep]
      simp

theorem try_join_all_first_error {ε α : Type} (pre : List (Except ε α)) (e : ε)
    (post : List (Except ε α)) (h : ∀ x ∈ pre, x.isOk = true) :
    try_join_all (pre ++ .error e :: post) = .error e := by
  induction pre with
  | nil => rfl
  | cons x rest ih =>
    cases x with
    | ok a =>
      have hstep : try_join_all ((Except.ok a :: rest) ++ Except.error e :: post) =
          (try_join_all (rest ++ Except.error e :: post)).map (a :: ·) := rfl
      rw [hstep, ih (fun y hy => h y (List.mem_cons_of_mem _ hy))]
      rfl
    | error e2 =>
      have hx := h (.error e2) (List.mem_cons_self _ _)
      simp at hx

/-- C2 counterexample: with register threshold 2, two of three `Register2`
requests succeed, yet `register_generation`'s phase 2 fails (with the
first error, `Transient`) instead of returning Ok. -/
theorem register2_threshold_counterexample :
    count_ok [(.ok ⟨false⟩ : Except RegisterError RegisterGenSuccess), .error .Transient,
      .ok ⟨false⟩] = 2 ∧
    register2_phase [.ok ⟨false⟩, .error .Transient, .ok ⟨false⟩] =
      .error (.Error .Transient) := by
  constructor <;> rfl

/-- C2 amended: phase 2 of registration requires every sent `Register2`
request to succeed (`try_join_all`): it returns Ok iff all outcomes are
Ok, and any failure aborts the operation with the first failing realm's
error, regardless of how many realms succeeded. -/
theorem register2_requires_all_successes
    (outcomes : List (Except RegisterError RegisterGenSuccess)) :
    ((register2_phase outcomes).isOk = true ↔ ∀ x ∈ outcomes, x.isOk = true) ∧
    (∀ pre e post, outcomes = pre ++ .error e :: post → (∀ x ∈ pre, x.isOk = true) →
      register2_phase outcomes = .error (.Error e)) := by
  constructor
  · rw [← try_join_all_isOk]
    unfold register2_phase
    cases h : try_join_all outcomes <;> simp [Except.isOk, Except.toBool]
  · intro pre e post heq hpre
    unfold register2_phase
    rw [heq, try_join_all_first_error pre e post hpre]

/-- C2 witness: the amended statement evaluated on concrete outcome
lists. -/
theorem register2_requires_all_successes_witness :
    register2_phase [.ok ⟨false⟩, .error .Transient] = .error (.Error .Transient) ∧
    (register2_phase [(.ok ⟨false⟩ : Except RegisterError RegisterGenSuccess)]).isOk = true := by
  have h1 := register2_requires_all_successes [.ok ⟨false⟩, .error .Transient]
  have h2 := register2_requires_all_successes [(.ok ⟨false⟩ : Except RegisterError RegisterGenSuccess)]
  refine ⟨h1.2 [.ok ⟨false⟩] .Transient [] rfl ?_, h2.1.mpr ?_⟩ <;>
    simp [Except.isOk, Except.toBool]

/-! ### C7: serialization round trips at 34 bytes -/

/-- C7: for `PrivateKey`, `PublicKey`, `BlindedInput` and `BlindedOutput`
values, `from_slice (to_vec x) = x`, and the encoding is exactly 34 bytes
(a 32-byte scalar/point plus the 2-byte framing).  Point values carry
their `CompressedRistretto` well-formedness (32 bytes, and the compressed
form decompresses back to the uncompressed form) as hypotheses. -/
theorem voprf_serialization_round_trip (F : Type) (env : VoprfEnv F) :
    (∀ k : PrivateKey Scalar25519,
      from_slice_private (to_vec_private k) = some k ∧ (to_vec_private k).length = 34) ∧
    (∀ pk : PublicKey, pk.bytes.length = 32 →
      from_slice_public (to_vec_public pk) = some pk ∧ (to_vec_public pk).length = 34) ∧
    (∀ x : BlindedInput F, x.point.compressed.length = 32 →
      env.decompress x.point.compressed = some x.point.uncompressed →
      from_slice_blinded_input env (to_vec_blinded_input x) = some x ∧
        (to_vec_blinded_input x).length = 34) ∧
    (∀ y : BlindedOutput F, y.point.compressed.length = 32 →
      env.decompress y.point.compressed = some y.point.uncompressed →
      from_slice_blinded_output env (to_vec_blinded_output y) = some y ∧
        (to_vec_blinded_output y).length = 34) := by
  refine ⟨?_, ?_, ?_, ?_⟩
  · intro k
    obtain ⟨⟨v, hv⟩⟩ := k
    constructor
    · have h1 : (toLEBytes 32 v).length = 32 := toLEBytes_length 32 v
      have h2 : fromLEBytes (toLEBytes 32 v) = v :=
        fromLEBytes_toLEBytes 32 v (lt_trans hv (by norm_num [scalarOrder]))
      unfold from_slice_private to_vec_private scalar_to_bytes scalar_from_bytes
      rw [cbor_decode_encode]
      simp [h1, h2, hv]
    · unfold to_vec_private scalar_to_bytes
      rw [cbor_encode_length, toLEBytes_length]
  · intro pk h32
    obtain ⟨b⟩ := pk
    constructor
    · unfold from_slice_public to_vec_public
      rw [cbor_decode_encode]
      simp at h32
      simp [h32]
    · unfold to_vec_public
      simp at h32
      rw [cbor_encode_length, h32]
  · intro x h32 hdec
    obtain ⟨⟨u, c⟩⟩ := x
    simp only at h32 hdec
    constructor
    · unfold from_slice_blinded_input to_vec_blinded_input DecompressedPoint.try_from
      rw [cbor_decode_encode]
      simp [h32, hdec]
    · unfold to_vec_blinded_input
      rw [cbor_encode_length]
      simp [h32]
  · intro y h32 hdec
    obtain ⟨⟨u, c⟩⟩ := y
    simp only at h32 hdec
    constructor
    · unfold from_slice_blinded_output to_vec_blinded_output DecompressedPoint.try_from
      rw [cbor_decode_encode]
      simp [h32, hdec]
    · unfold to_vec_blinded_output
      rw [cbor_encode_length]
      simp [h32]

/-- C7 witness: the round trip and the 34-byte size evaluated on concrete
values of each of the four types. -/
theorem voprf_serialization_round_trip_witness :
    (from_slice_private (to_vec_private kW) = some kW ∧ (to_vec_private kW).length = 34) ∧
    (from_slice_public (to_vec_public pkW) = some pkW ∧ (to_vec_public pkW).length = 34) ∧
    (from_slice_blinded_input envB (to_vec_blinded_input xW) = some xW ∧
      (to_vec_blinded_input xW).length = 34) ∧
    (from_slice_blinded_output envB (to_vec_blinded_output yW) = some yW ∧
      (to_vec_blinded_output yW).length = 34) := by
  have h := voprf_serialization_round_trip (Fin 2) envB
  exact ⟨h.1 kW, h.2.1 pkW (by decide), h.2.2.1 xW (by decide) (by decide),
    h.2.2.2 yW (by decide) (by decide)⟩

/-! ### C8: non-canonical encodings are rejected -/

/-- C8: `DecompressedPoint::try_from` succeeds exactly when decompression
succeeds; a successfully decoded point keeps the original compressed
bytes, so (given that `curve25519_dalek` decompression succeeds only on
canonical encodings, i.e. `decompress c = some p → compress p = c`) every
decoded point is canonical; deserializing a group element whose 32 bytes
do not decompress fails; and `verify_proof` rejects a public key whose
bytes do not decompress. -/
theorem decompressed_point_rejects_noncanonical (F : Type) (env : VoprfEnv F) :
    (∀ c : List Nat,
      (DecompressedPoint.try_from env c).isOk = (env.decompress c).isSome) ∧
    (∀ c d, DecompressedPoint.try_from env c = .ok d →
      d.compressed = c ∧ env.decompress c = some d.uncompressed) ∧
    ((∀ c p, env.decompress c = some p → env.compress p = c) →
      ∀ c d, DecompressedPoint.try_from env c = .ok d →
        env.compress d.uncompressed = d.compressed) ∧
    (∀ bytes c, cbor_bytes_decode bytes = some c → env.decompress c = none →
      from_slice_blinded_input env bytes = none) ∧
    (∀ (B0 : BlindedInput F) (B1 : BlindedOutput F) pk proof,
      env.decompress pk.bytes = none →
      verify_proof env B0 B1 pk proof = .error "invalid public key") := by
  refine ⟨?_, ?_, ?_, ?_, ?_⟩
  · intro c
    cases h : env.decompress c <;>
      simp [DecompressedPoint.try_from, h, Except.isOk, Except.toBool]
  · intro c d hd
    unfold DecompressedPoint.try_from at hd
    cases h : env.decompress c with
    | none =>
      rw [h] at hd
      exact absurd hd (by simp)
    | some u =>
      rw [h] at hd
      injection hd with h2
      subst h2
      exact ⟨rfl, rfl⟩
  · intro hcanon c d hd
    unfold DecompressedPoint.try_from at hd
    cases h : env.decompress c with
    | none =>
      rw [h] at hd
      exact absurd hd (by simp)
    | some u =>
      rw [h] at hd
      injection hd with h2
      subst h2
      exact hcanon c u h
  · intro bytes c hb hdec
    unfold from_slice_blinded_input
    rw [hb]
    by_cases hl : c.length = 32 <;> simp [hl, DecompressedPoint.try_from, hdec]
  · intro B0 B1 pk proof hdec
    unfold verify_proof DecompressedPoint.try_from
    rw [hdec]

/-- C8 witness: the rejection behavior evaluated on the concrete `Unit`
environment, whose only canonical encoding is the empty byte string. -/
theorem decompressed_point_rejects_noncanonical_witness :
    ((DecompressedPoint.try_from envU []).isOk = (envU.decompress ([] : List Nat)).isSome) ∧
    (envU.compress () = ([] : List Nat)) ∧
    (from_slice_blinded_input envU (cbor_bytes_encode [9]) = none) ∧
    (verify_proof envU ⟨⟨(), []⟩⟩ ⟨⟨(), []⟩⟩ ⟨[9]⟩ ((), ()) = .error "invalid public key") := by
  have h := decompressed_point_rejects_noncanonical Unit envU
  have hcanon : ∀ c p, envU.decompress c = some p → envU.compress p = c := by
    intro c p hcp
    by_cases hce : c = []
    · subst hce
      rfl
    · simp [envU, hce] at hcp
  refine ⟨h.1 [], ?_, ?_, ?_⟩
  · exact h.2.2.1 hcanon [] ⟨(), []⟩ rfl
  · exact h.2.2.2.1 (cbor_bytes_encode [9]) [9] (cbor_decode_encode [9]) (by decide)
  · exact h.2.2.2.2 ⟨⟨(), []⟩⟩ ⟨⟨(), []⟩⟩ ⟨[9]⟩ ((), ()) (by decide)

/-! ### C3: phase-1 fails fast with the highest-priority error -/

theorem register1_collect_append (n t : Nat)
    (pre rest : List (Except RegisterGenError OprfResult)) :
    ∀ (oprfs_pin : List (Option OprfResult)) (retry_generation : Option Nat)
      (found_errors : List RegisterError),
      t ≤ n - (found_errors.length + (errorsOf pre).length) →
      register1_collect n t (pre ++ rest) oprfs_pin retry_generation found_errors =
        register1_collect n t rest (oprfs_pin ++ oprfsOf pre)
          (retryAcc retry_generation pre) (found_errors ++ errorsOf pre) := by
  induction pre with
  | nil =>
    intro oprfs retryGen found _h
    simp [errorsOf, oprfsOf, retryAcc]
  | cons x pre ih =>
    intro oprfs retryGen found h
    cases x with
    | ok o =>
      have hstep : register1_collect n t ((Except.ok o :: pre) ++ rest) oprfs retryGen found =
          register1_collect n t (pre ++ rest) (oprfs ++ [some o]) retryGen found := rfl
      rw [hstep, ih _ _ _ (by simpa [errorsOf] using h), List.append_assoc]
      rfl
    | error ge =>
      cases ge with
      | Error e =>
        have hlen : (errorsOf (Except.error (RegisterGenError.Error e) :: pre)).length =
            (errorsOf pre).length + 1 := by
          simp [errorsOf]
        have hcond : ¬ (n - (found ++ [e]).length < t) := by
          rw [hlen] at h
          simp only [List.length_append, List.length_cons, List.length_nil]
          omega
        have hbound : t ≤ n - ((found ++ [e]).length + (errorsOf pre).length) := by
          rw [hlen] at h
          simp only [List.length_append, List.length_cons, List.length_nil]
          omega
        have hstep : register1_collect n t
            ((Except.error (RegisterGenError.Error e) :: pre) ++ rest) oprfs retryGen found =
            if n - (found ++ [e]).length < t then
              match sortErrors (found ++ [e]) with
              | [] => .error (.Error e)
              | worst :: _ => .error (.Error worst)
            else
              register1_collect n t (pre ++ rest) (oprfs ++ [none]) retryGen (found ++ [e]) := rfl
        rw [hstep, if_neg hcond, ih _ _ _ hbound, List.append_assoc, List.append_assoc]
        rfl
      | Retry g =>
        have hstep : register1_collect n t
            ((Except.error (RegisterGenError.Retry g) :: pre) ++ rest) oprfs retryGen found =
            register1_collect n t (pre ++ rest) oprfs
              (match retryGen with
               | none => some g
               | some g0 => if g0 < g then some g else some g0)
              found := rfl
        rw [hstep, ih _ _ _ (by simpa [errorsOf] using h)]
        rfl

theorem errRank_injective (a b : RegisterError) (h : errRank a = errRank b) : a = b := by
  cases a <;> cases b <;> simp [errRank] at h ⊢

theorem sortErrors_head (l : List RegisterError) (hne : l ≠ []) :
    ∃ tl, sortErrors l = highestPriority l :: tl := by
  have hsorted := List.sorted_insertionSort errLE l
  have hperm := List.perm_insertionSort errLE l
  cases hs : List.insertionSort errLE l with
  | nil =>
    exfalso
    have hlen := hperm.length_eq
    rw [hs] at hlen
    cases l with
    | nil => exact hne rfl
    | cons a as => simp at hlen
  | cons m tl =>
    refine ⟨tl, ?_⟩
    have hmem : m ∈ l := hperm.mem_iff.mp (by rw [hs]; exact List.mem_cons_self m tl)
    have hmin : ∀ x ∈ l, errLE m x := by
      intro x hx
      have hx2 : x ∈ List.insertionSort errLE l := hperm.mem_iff.mpr hx
      rw [hs] at hx2
      rcases List.mem_cons.mp hx2 with hxm | hxtl
      · rw [hxm]
        exact Nat.le_refl _
      · have hsorted2 := hsorted
        rw [hs] at hsorted2
        exact List.rel_of_sorted_cons hsorted2 x hxtl
    have hhp : highestPriority l = m := by
      unfold highestPriority
      by_cases hIA : RegisterError.InvalidAuth ∈ l
      · rw [if_pos hIA]
        have hle := hmin _ hIA
        cases m with
        | InvalidAuth => rfl
        | Assertion => simp [errLE, errRank] at hle
        | Transient => simp [errLE, errRank] at hle
      · by_cases hA : RegisterError.Assertion ∈ l
        · rw [if_neg hIA, if_pos hA]
          have hle := hmin _ hA
          cases m with
          | InvalidAuth => exact absurd hmem hIA
          | Assertion => rfl
          | Transient => simp [errLE, errRank] at hle
        · rw [if_neg hIA, if_neg hA]
          cases m with
          | InvalidAuth => exact absurd hmem hIA
          | Assertion => exact absurd hmem hA
          | Transient => rfl
    unfold sortErrors
    rw [hs, hhp]

/-- C3: during phase 1, as soon as a failure makes
`realms.count − failures < register_threshold`, `register_generation`
returns immediately (whatever per-realm results are still pending) with
the highest-priority error observed so far, where the priority order is
`InvalidAuth > Assertion > Transient`. -/
theorem register1_threshold_fail_fast (n t : Nat)
    (pre post : List (Except RegisterGenError OprfResult)) (e : RegisterError)
    (hbefore : t ≤ n - (errorsOf pre).length)
    (hcross : n - ((errorsOf pre).length + 1) < t) :
    register1_phase n t (pre ++ .error (.Error e) :: post) =
      .error (.Error (highestPriority (errorsOf pre ++ [e]))) := by
  unfold register1_phase
  rw [register1_collect_append n t pre (.error (.Error e) :: post) [] none []
    (by simpa using hbefore)]
  simp only [List.nil_append]
  have hcond : n - (errorsOf pre ++ [e]).length < t := by
    simp only [List.length_append, List.length_cons, List.length_nil]
    omega
  have hstep : register1_collect n t (.error (.Error e) :: post) (oprfsOf pre)
      (retryAcc none pre) (errorsOf pre) =
      if n - (errorsOf pre ++ [e]).length < t then
        match sortErrors (errorsOf pre ++ [e]) with
        | [] => .error (.Error e)
        | worst :: _ => .error (.Error worst)
      else
        register1_collect n t post (oprfsOf pre ++ [none]) (retryAcc none pre)
          (errorsOf pre ++ [e]) := rfl
  rw [hstep, if_pos hcond]
  obtain ⟨tl, htl⟩ := sortErrors_head (errorsOf pre ++ [e]) (by simp)
  rw [htl]

/-- C3 witness: with three realms and threshold 2, a second phase-1
failure aborts the run with the already-observed `InvalidAuth`, which
outranks `Transient`. -/
theorem register1_threshold_fail_fast_witness :
    register1_phase 3 2 [.error (.Error .Transient), .error (.Error .InvalidAuth)] =
      .error (.Error .InvalidAuth) := by
  have h := register1_threshold_fail_fast 3 2
    [.error (.Error .Transient)] [] .InvalidAuth (by decide) (by decide)
  have h2 : highestPriority
      (errorsOf [(.error (.Error .Transient) : Except RegisterGenError OprfResult)] ++
        [.InvalidAuth]) = .InvalidAuth := by decide
  rw [h2] at h
  exact h
